import Mathlib

/-!
Shallow embedding of the pcap streaming codec (src/io.go, package pcap).

Bytes are modelled as natural numbers below 256 inside lists; machine words
use Nat (unsigned) and Int (for int32 and for time instants) with explicit
reductions modulo 2^32 at the conversion points where Go truncates.
A Go io.Reader is modelled as a ByteStream: the list of bytes it will still
deliver, together with the error it reports once those bytes are exhausted
(io.EOF for an ordinary stream).  Reader.read retries short reads until the
buffer is full or the stream errors, so over such a stream it succeeds
exactly when enough bytes remain, and drains the stream otherwise.
A Go time.Time is modelled as the instant it denotes, an Int count of
nanoseconds since the Unix epoch: time.Unix(sec, nsec) denotes
sec * 1000000000 + nsec, Unix() is floor division and Nanosecond() the
remainder.
-/

namespace Pcap

/-- Error values that can cross the modelled interfaces: end of stream,
a bad-magic construction error carrying the offending word, and a sink
write error. -/
inductive Err where
  | eof : Err
  | badMagic : Nat → Err
  | sinkErr : Err
deriving Repr, DecidableEq

/-- Model of the byte source behind io.Reader: the bytes still to be
delivered, and the error returned once they run out. -/
structure ByteStream where
  data : List Nat
  tailErr : Err
deriving Repr, DecidableEq

/-- Models Reader.read (io.go 114-126): fill a buffer of n bytes, retrying
short reads; over a ByteStream this succeeds exactly when n bytes remain,
and otherwise consumes everything and reports the stream error. -/
def sread (n : Nat) (s : ByteStream) : Option (List Nat) × ByteStream :=
  if n ≤ s.data.length then
    (some (s.data.take n), { data := s.data.drop n, tailErr := s.tailErr })
  else
    (none, { data := [], tailErr := s.tailErr })

/-- Little-endian 32-bit decode of the first four bytes. -/
def leUint32 (b : List Nat) : Nat :=
  b.getD 0 0 + b.getD 1 0 * 256 + b.getD 2 0 * 65536 + b.getD 3 0 * 16777216

/-- Big-endian 32-bit decode of the first four bytes. -/
def beUint32 (b : List Nat) : Nat :=
  b.getD 3 0 + b.getD 2 0 * 256 + b.getD 1 0 * 65536 + b.getD 0 0 * 16777216

/-- Models asUint32 (io.go 191-196). -/
def asUint32 (data : List Nat) (flip : Bool) : Nat :=
  if flip then beUint32 data else leUint32 data

/-- Little-endian 16-bit decode of the first two bytes. -/
def leUint16 (b : List Nat) : Nat := b.getD 0 0 + b.getD 1 0 * 256

/-- Big-endian 16-bit decode of the first two bytes. -/
def beUint16 (b : List Nat) : Nat := b.getD 1 0 + b.getD 0 0 * 256

/-- Models asUint16 (io.go 198-203). -/
def asUint16 (data : List Nat) (flip : Bool) : Nat :=
  if flip then beUint16 data else leUint16 data

/-- Models binary.LittleEndian.PutUint32: the four low-order bytes of n,
least significant first (Go truncates to uint32 first; taking bytes of n
directly agrees with truncation). -/
def putUint32LE (n : Nat) : List Nat :=
  [n % 256, n / 256 % 256, n / 65536 % 256, n / 16777216 % 256]

/-- Models binary.LittleEndian.PutUint16. -/
def putUint16LE (n : Nat) : List Nat := [n % 256, n / 256 % 256]

/-- Models the Go conversion int32(u) for a uint32 value u: two's-complement
reinterpretation. -/
def toInt32 (n : Nat) : Int :=
  if n < 2147483648 then (n : Int) else (n : Int) - 4294967296

/-- Models the Go conversion uint32(x) for an int64 value x: truncation to
the low 32 bits. -/
def uint32OfInt (x : Int) : Nat := Int.toNat (x % 4294967296)

/-- Models the instant time.Unix(sec, nsec): nanoseconds since the epoch. -/
def timeUnix (sec nsec : Int) : Int := sec * 1000000000 + nsec

/-- Models t.Unix() for an instant t: the floor of t over one billion,
since time.Time keeps a nonnegative nanosecond remainder. -/
def unixSec (t : Int) : Int := t / 1000000000

/-- Models t.Nanosecond() for an instant t: the nonnegative remainder. -/
def unixNanosecond (t : Int) : Int := t % 1000000000

/-- FileHeader (io.go 13-25): the parsed header of a pcap file. -/
structure FileHeader where
  MagicNumber : Nat
  VersionMajor : Nat
  VersionMinor : Nat
  TimeZone : Int
  SigFigs : Nat
  SnapLen : Nat
  LinkType : Nat
deriving Repr, DecidableEq

/-- Reader (io.go 28-38): flip is the byte-order flag, err the retained
last error, Header the stored file header, Count the pool's allocation
counter, DataPool the buffers currently available for reuse. -/
structure Reader where
  flip : Bool
  err : Option Err
  Header : FileHeader
  Count : Nat
  DataPool : List (List Nat)
deriving Repr, DecidableEq

/-- Packet: the fields of a produced record that the spec's tuple names
(Time as an instant in nanoseconds, Caplen, Len, and the payload buffer). -/
structure Packet where
  Time : Int
  Caplen : Nat
  Len : Nat
  Data : List Nat
deriving Repr, DecidableEq

/-- Models NewPacketData (io.go 44-46): a zero-filled buffer of the given
size. -/
def NewPacketData (size : Nat) : List Nat := List.replicate size 0

/-- Models DataPool.Get: pop a pooled buffer if one is available, else run
the New factory (io.go 74-82), which increments Count and allocates a
fresh zero-filled buffer of SnapLen bytes. -/
def poolGet (r : Reader) : List Nat × Reader :=
  match r.DataPool with
  | b :: rest => (b, { r with DataPool := rest })
  | [] => (NewPacketData r.Header.SnapLen, { r with Count := r.Count + 1 })

/-- Models DataPool.Put: return a buffer to the pool. -/
def poolPut (r : Reader) (b : List Nat) : Reader :=
  { r with DataPool := b :: r.DataPool }

/-- Models Reader.readUint16 (io.go 144-150): on a short read the retained
error is set and 0 is returned. Results are (value, recorded error, rest
of stream). -/
def readU16 (flip : Bool) (s : ByteStream) : Nat × Option Err × ByteStream :=
  match sread 2 s with
  | (some bs, s1) => (asUint16 bs flip, none, s1)
  | (none, s1) => (0, some s.tailErr, s1)

/-- Models Reader.readUint32 (io.go 128-134). -/
def readU32 (flip : Bool) (s : ByteStream) : Nat × Option Err × ByteStream :=
  match sread 4 s with
  | (some bs, s1) => (asUint32 bs flip, none, s1)
  | (none, s1) => (0, some s.tailErr, s1)

/-- Models Reader.readInt32 (io.go 136-142). -/
def readI32 (flip : Bool) (s : ByteStream) : Int × Option Err × ByteStream :=
  match sread 4 s with
  | (some bs, s1) => (toInt32 (asUint32 bs flip), none, s1)
  | (none, s1) => (0, some s.tailErr, s1)

/-- Models the construction of r.Header and r.DataPool in NewReader
(io.go 65-82) once the byte-order flag is fixed: the six fields are read
in order, each read overwrites r.err (so the retained error is that of
the last read), MagicNumber is stored as the constant 0xa1b23c4d, and the
pool starts empty with Count 0. -/
def mkHeaderReader (flip : Bool) (s : ByteStream) : Reader × ByteStream :=
  let a := readU16 flip s
  let b := readU16 flip a.2.2
  let c := readI32 flip b.2.2
  let d := readU32 flip c.2.2
  let e := readU32 flip d.2.2
  let f := readU32 flip e.2.2
  ({ flip := flip
   , err := f.2.1
   , Header :=
     { MagicNumber := 0xa1b23c4d
     , VersionMajor := a.1
     , VersionMinor := b.1
     , TimeZone := c.1
     , SigFigs := d.1
     , SnapLen := e.1
     , LinkType := f.1 }
   , Count := 0
   , DataPool := [] }, f.2.2)

/-- Models NewReader (io.go 50-84): read the magic word with the flag still
unset (little-endian; a short read yields 0), dispatch on it, and build
the rest of the Reader. The named return err is never assigned in the
source, so after a recognized magic the construction returns ok even when
the six field reads fail; field-read errors land only in the reader's err
field. -/
def NewReader (s : ByteStream) : Except Err (Reader × ByteStream) :=
  let m := sread 4 s
  let magic := match m.1 with
    | some bs => asUint32 bs false
    | none => 0
  if magic = 0xa1b2c3d4 ∨ magic = 0xa1b23c4d then
    Except.ok (mkHeaderReader false m.2)
  else if magic = 0xd4c3b2a1 ∨ magic = 0x4d3cb2a1 then
    Except.ok (mkHeaderReader true m.2)
  else
    Except.error (Err.badMagic magic)

/-- Models Reader.Next (io.go 87-112): read the 16-byte record header,
decode its four words with the stream's byte order, get a buffer from the
pool, fill the whole buffer from the stream, and build the packet with
time.Unix(seconds, fraction). Any short read sets the retained error and
returns no packet. -/
def Reader.Next (r : Reader) (s : ByteStream) :
    Option Packet × Reader × ByteStream :=
  match sread 16 s with
  | (none, s1) => (none, { r with err := some s.tailErr }, s1)
  | (some d, s1) =>
    let timeSec := asUint32 (d.take 4) r.flip
    let timeUsec := asUint32 ((d.drop 4).take 4) r.flip
    let capLen := asUint32 ((d.drop 8).take 4) r.flip
    let origLen := asUint32 (d.drop 12) r.flip
    let g := poolGet r
    match sread g.1.length s1 with
    | (none, s2) => (none, { g.2 with err := some s1.tailErr }, s2)
    | (some payload, s2) =>
      (some { Time := timeUnix (Int.ofNat timeSec) (Int.ofNat timeUsec)
            , Caplen := capLen
            , Len := origLen
            , Data := payload },
       { g.2 with err := none }, s2)

/-- Model of the byte sink behind io.Writer: the bytes written so far, and
whether writes succeed. -/
structure Sink where
  written : List Nat
  good : Bool
deriving Repr, DecidableEq

/-- Models one Write call on the underlying io.Writer. -/
def sinkWrite (sk : Sink) (bs : List Nat) : Except Err Sink :=
  if sk.good then Except.ok { sk with written := sk.written ++ bs }
  else Except.error Err.sinkErr

/-- Writer (io.go 153-156): holds the underlying sink. -/
structure Writer where
  sink : Sink
deriving Repr, DecidableEq

/-- The 24 bytes NewWriter serializes (io.go 165-171): all fields
little-endian at fixed offsets. -/
def headerBytes (h : FileHeader) : List Nat :=
  putUint32LE h.MagicNumber ++ putUint16LE h.VersionMajor ++
    putUint16LE h.VersionMinor ++ putUint32LE (uint32OfInt h.TimeZone) ++
    putUint32LE h.SigFigs ++ putUint32LE h.SnapLen ++ putUint32LE h.LinkType

/-- Models NewWriter (io.go 160-176): serialize the header and write it
immediately; fail, returning no Writer, exactly when that write fails. -/
def NewWriter (sk : Sink) (header : FileHeader) : Except Err Writer :=
  match sinkWrite sk (headerBytes header) with
  | Except.error e => Except.error e
  | Except.ok sk1 => Except.ok { sink := sk1 }

/-- The 16 bytes Writer.Write serializes for a record header
(io.go 180-183): uint32(t.Unix()), uint32(t.Nanosecond()), Caplen, Len,
all little-endian. -/
def recordHeaderBytes (pkt : Packet) : List Nat :=
  putUint32LE (uint32OfInt (unixSec pkt.Time)) ++
    putUint32LE (unixNanosecond pkt.Time).toNat ++
    putUint32LE pkt.Caplen ++ putUint32LE pkt.Len

/-- Models Writer.Write (io.go 179-189): write the 16-byte record header,
then the full payload buffer; fail on the first failing write. -/
def Writer.Write (w : Writer) (pkt : Packet) : Except Err Writer :=
  match sinkWrite w.sink (recordHeaderBytes pkt) with
  | Except.error e => Except.error e
  | Except.ok sk1 =>
    match sinkWrite sk1 pkt.Data with
    | Except.error e => Except.error e
    | Except.ok sk2 => Except.ok { sink := sk2 }

/-- Serialized bytes of one record: header then full payload. -/
def recordBytes (pkt : Packet) : List Nat := recordHeaderBytes pkt ++ pkt.Data

/-- Serialized bytes of a list of records. -/
def recordsBytes (pkts : List Packet) : List Nat :=
  (pkts.map recordBytes).flatten

/-- Writes a header and a list of packets through NewWriter and
Writer.Write into a fresh, always-succeeding sink, returning the final
sink. -/
def writeAll (header : FileHeader) (pkts : List Packet) : Except Err Sink :=
  match NewWriter { written := [], good := true } header with
  | Except.error e => Except.error e
  | Except.ok w =>
    match pkts.foldlM Writer.Write w with
    | Except.error e => Except.error e
    | Except.ok w1 => Except.ok w1.sink

/-- Calls Next n times, collecting the packets produced; stops early if a
call produces none. -/
def readN (n : Nat) (r : Reader) (s : ByteStream) :
    List Packet × Reader × ByteStream :=
  match n with
  | 0 => ([], r, s)
  | Nat.succ k =>
    match Reader.Next r s with
    | (some p, r1, s1) =>
      let t := readN k r1 s1
      (p :: t.1, t.2.1, t.2.2)
    | (none, r1, s1) => ([], r1, s1)

/-- Full round trip: serialize through the Writer, construct a Reader on
the produced bytes, read the packets back, and report the stored header,
the reader's retained error after construction, and the packets read. -/
def roundTripRead (header : FileHeader) (pkts : List Packet) :
    Option (FileHeader × Option Err × List Packet) :=
  match writeAll header pkts with
  | Except.error _ => none
  | Except.ok sk =>
    match NewReader { data := sk.written, tailErr := Err.eof } with
    | Except.error _ => none
    | Except.ok rs =>
      let out := readN pkts.length rs.1 rs.2
      some (rs.1.Header, rs.1.err, out.1)

/-! ## Helper lemmas -/

theorem putUint32LE_length (n : Nat) : (putUint32LE n).length = 4 := rfl

theorem putUint16LE_length (n : Nat) : (putUint16LE n).length = 2 := rfl

theorem leUint32_putUint32LE (n : Nat) (h : n < 4294967296) :
    leUint32 (putUint32LE n) = n := by
  simp only [leUint32, putUint32LE, List.getD_cons_zero, List.getD_cons_succ]
  omega

theorem asUint32_putUint32LE (n : Nat) (h : n < 4294967296) :
    asUint32 (putUint32LE n) false = n := by
  simpa [asUint32] using leUint32_putUint32LE n h

theorem leUint16_putUint16LE (n : Nat) (h : n < 65536) :
    leUint16 (putUint16LE n) = n := by
  simp only [leUint16, putUint16LE, List.getD_cons_zero, List.getD_cons_succ]
  omega

theorem asUint16_putUint16LE (n : Nat) (h : n < 65536) :
    asUint16 (putUint16LE n) false = n := by
  simpa [asUint16] using leUint16_putUint16LE n h

theorem uint32OfInt_lt (x : Int) : uint32OfInt x < 4294967296 := by
  simp only [uint32OfInt]
  omega

theorem toInt32_uint32OfInt (x : Int) (h1 : -2147483648 ≤ x)
    (h2 : x < 2147483648) : toInt32 (uint32OfInt x) = x := by
  simp only [toInt32, uint32OfInt]
  split <;> omega

theorem sread_append (bs rest : List Nat) (e : Err) :
    sread bs.length { data := bs ++ rest, tailErr := e } =
      (some bs, { data := rest, tailErr := e }) := by
  simp [sread, List.take_left, List.drop_left]

theorem sread_of_le (n : Nat) (s : ByteStream) (h : n ≤ s.data.length) :
    sread n s =
      (some (s.data.take n), { data := s.data.drop n, tailErr := s.tailErr }) := by
  simp [sread, h]

theorem sread_of_lt (n : Nat) (s : ByteStream) (h : s.data.length < n) :
    sread n s = (none, { data := [], tailErr := s.tailErr }) := by
  simp only [sread]
  rw [if_neg (by omega)]

theorem take4_put32 (n : Nat) (l : List Nat) :
    (putUint32LE n ++ l).take 4 = putUint32LE n := by
  simp [putUint32LE]

theorem drop4_put32 (n : Nat) (l : List Nat) :
    (putUint32LE n ++ l).drop 4 = l := by
  simp [putUint32LE]

theorem drop8_put32 (n : Nat) (l : List Nat) :
    (putUint32LE n ++ l).drop 8 = l.drop 4 := by
  simp [putUint32LE]

theorem drop12_put32 (n : Nat) (l : List Nat) :
    (putUint32LE n ++ l).drop 12 = l.drop 8 := by
  simp [putUint32LE]

theorem mkHeaderReader_flip (fl : Bool) (s : ByteStream) :
    (mkHeaderReader fl s).1.flip = fl := rfl

theorem mkHeaderReader_magic (fl : Bool) (s : ByteStream) :
    (mkHeaderReader fl s).1.Header.MagicNumber = 0xa1b23c4d := rfl

theorem sread4_put32 (n : Nat) (rest : List Nat) (e : Err) :
    sread 4 { data := putUint32LE n ++ rest, tailErr := e } =
      (some (putUint32LE n), { data := rest, tailErr := e }) := by
  simpa [putUint32LE_length] using sread_append (putUint32LE n) rest e

theorem sread2_put16 (n : Nat) (rest : List Nat) (e : Err) :
    sread 2 { data := putUint16LE n ++ rest, tailErr := e } =
      (some (putUint16LE n), { data := rest, tailErr := e }) := by
  simpa [putUint16LE_length] using sread_append (putUint16LE n) rest e

theorem readU32_put32 (n : Nat) (rest : List Nat) (e : Err)
    (h : n < 4294967296) :
    readU32 false { data := putUint32LE n ++ rest, tailErr := e } =
      (n, none, { data := rest, tailErr := e }) := by
  simp [readU32, sread4_put32, asUint32_putUint32LE n h]

theorem readU16_put16 (n : Nat) (rest : List Nat) (e : Err)
    (h : n < 65536) :
    readU16 false { data := putUint16LE n ++ rest, tailErr := e } =
      (n, none, { data := rest, tailErr := e }) := by
  simp [readU16, sread2_put16, asUint16_putUint16LE n h]

theorem readI32_put32 (x : Int) (rest : List Nat) (e : Err)
    (h1 : -2147483648 ≤ x) (h2 : x < 2147483648) :
    readI32 false { data := putUint32LE (uint32OfInt x) ++ rest, tailErr := e } =
      (x, none, { data := rest, tailErr := e }) := by
  simp [readI32, sread4_put32,
    asUint32_putUint32LE (uint32OfInt x) (uint32OfInt_lt x),
    toInt32_uint32OfInt x h1 h2]

theorem NewReader_headerBytes (h : FileHeader) (rest : List Nat) (e : Err)
    (hm : h.MagicNumber = 0xa1b2c3d4 ∨ h.MagicNumber = 0xa1b23c4d)
    (h1 : h.VersionMajor < 65536) (h2 : h.VersionMinor < 65536)
    (h3 : -2147483648 ≤ h.TimeZone) (h4 : h.TimeZone < 2147483648)
    (h5 : h.SigFigs < 4294967296) (h6 : h.SnapLen < 4294967296)
    (h7 : h.LinkType < 4294967296) :
    NewReader { data := headerBytes h ++ rest, tailErr := e } =
      Except.ok
        ({ flip := false, err := none,
           Header := { h with MagicNumber := 0xa1b23c4d },
           Count := 0, DataPool := [] },
         { data := rest, tailErr := e }) := by
  have hmlt : h.MagicNumber < 4294967296 := by rcases hm with hm | hm <;> omega
  rw [NewReader]
  rw [show headerBytes h ++ rest =
    putUint32LE h.MagicNumber ++ (putUint16LE h.VersionMajor ++
      (putUint16LE h.VersionMinor ++ (putUint32LE (uint32OfInt h.TimeZone) ++
        (putUint32LE h.SigFigs ++ (putUint32LE h.SnapLen ++
          (putUint32LE h.LinkType ++ rest)))))) by
    simp [headerBytes, List.append_assoc]]
  rw [sread4_put32]
  simp only [asUint32_putUint32LE h.MagicNumber hmlt]
  rw [if_pos hm]
  rw [mkHeaderReader]
  rw [readU16_put16 _ _ _ h1]
  simp only
  rw [readU16_put16 _ _ _ h2]
  simp only
  rw [readI32_put32 _ _ _ h3 h4]
  simp only
  rw [readU32_put32 _ _ _ h5]
  simp only
  rw [readU32_put32 _ _ _ h6]
  simp only
  rw [readU32_put32 _ _ _ h7]

theorem NewWriter_good (sk : Sink) (h : FileHeader) (hg : sk.good = true) :
    NewWriter sk h =
      Except.ok { sink := { written := sk.written ++ headerBytes h, good := true } } := by
  simp [NewWriter, sinkWrite, hg]

theorem NewWriter_bad (sk : Sink) (h : FileHeader) (hg : sk.good = false) :
    NewWriter sk h = Except.error Err.sinkErr := by
  simp [NewWriter, sinkWrite, hg]

theorem Writer_Write_good (w : Writer) (pkt : Packet) (hg : w.sink.good = true) :
    Writer.Write w pkt =
      Except.ok { sink := { written := w.sink.written ++ recordBytes pkt, good := true } } := by
  simp [Writer.Write, sinkWrite, hg, recordBytes, List.append_assoc]

theorem foldlM_Write_good (pkts : List Packet) (w : Writer) (hg : w.sink.good = true) :
    pkts.foldlM Writer.Write w =
      Except.ok { sink := { written := w.sink.written ++ recordsBytes pkts, good := true } } := by
  induction pkts generalizing w with
  | nil =>
    obtain ⟨⟨d, g⟩⟩ := w
    simp only at hg
    subst hg
    simp only [List.foldlM_nil, recordsBytes, List.map_nil, List.flatten_nil,
      List.append_nil]
    rfl
  | cons p ps ih =>
    rw [List.foldlM_cons, Writer_Write_good w p hg]
    have step := ih { sink := { written := w.sink.written ++ recordBytes p, good := true } } rfl
    show List.foldlM Writer.Write
        { sink := { written := w.sink.written ++ recordBytes p, good := true } } ps = _
    rw [step]
    simp [recordsBytes, List.append_assoc]

theorem writeAll_eq (h : FileHeader) (pkts : List Packet) :
    writeAll h pkts =
      Except.ok { written := headerBytes h ++ recordsBytes pkts, good := true } := by
  rw [writeAll, NewWriter_good _ _ rfl]
  simp only
  rw [foldlM_Write_good pkts _ rfl]
  simp

theorem nano_toNat_lt (t : Int) : (unixNanosecond t).toNat < 4294967296 := by
  simp only [unixNanosecond]
  omega

theorem timeUnix_recover (t : Int) (h0 : 0 ≤ t) (h1 : t < 4294967296000000000) :
    timeUnix (Int.ofNat (uint32OfInt (unixSec t)))
      (Int.ofNat (unixNanosecond t).toNat) = t := by
  simp only [timeUnix, uint32OfInt, unixSec, unixNanosecond, Int.ofNat_eq_coe]
  omega

theorem Next_recordBytes (H : FileHeader) (e0 : Option Err) (c : Nat)
    (pkt : Packet) (rest : List Nat) (e : Err)
    (hlen : pkt.Data.length = H.SnapLen)
    (hcap : pkt.Caplen < 4294967296) (hl : pkt.Len < 4294967296)
    (ht0 : 0 ≤ pkt.Time) (ht1 : pkt.Time < 4294967296000000000) :
    Reader.Next { flip := false, err := e0, Header := H, Count := c, DataPool := [] }
        { data := recordBytes pkt ++ rest, tailErr := e } =
      (some pkt,
       { flip := false, err := none, Header := H, Count := c + 1, DataPool := [] },
       { data := rest, tailErr := e }) := by
  obtain ⟨T, C, L, D⟩ := pkt
  simp only at hlen hcap hl ht0 ht1
  have hdata : recordBytes { Time := T, Caplen := C, Len := L, Data := D } ++ rest =
      (putUint32LE (uint32OfInt (unixSec T)) ++
        (putUint32LE (unixNanosecond T).toNat ++
          (putUint32LE C ++ putUint32LE L))) ++ (D ++ rest) := by
    simp [recordBytes, recordHeaderBytes, List.append_assoc]
  have hbsl : (putUint32LE (uint32OfInt (unixSec T)) ++
      (putUint32LE (unixNanosecond T).toNat ++
        (putUint32LE C ++ putUint32LE L))).length = 16 := by
    simp [putUint32LE]
  have h16 := sread_append
    (putUint32LE (uint32OfInt (unixSec T)) ++
      (putUint32LE (unixNanosecond T).toNat ++ (putUint32LE C ++ putUint32LE L)))
    (D ++ rest) e
  rw [hbsl] at h16
  rw [Reader.Next, hdata, h16]
  simp only [take4_put32, drop4_put32, drop8_put32, drop12_put32]
  simp only [asUint32_putUint32LE _ (uint32OfInt_lt (unixSec T)),
    asUint32_putUint32LE _ (nano_toNat_lt T),
    asUint32_putUint32LE _ hcap, asUint32_putUint32LE _ hl]
  simp only [poolGet, NewPacketData, List.length_replicate]
  rw [show H.SnapLen = D.length from hlen.symm]
  rw [sread_append D rest e]
  simp only [timeUnix_recover T ht0 ht1]

theorem readN_records (H : FileHeader) (pkts : List Packet) (e0 : Option Err)
    (c : Nat) (rest : List Nat) (e : Err)
    (hp : ∀ p ∈ pkts, p.Data.length = H.SnapLen ∧ p.Caplen < 4294967296 ∧
      p.Len < 4294967296 ∧ 0 ≤ p.Time ∧ p.Time < 4294967296000000000) :
    (readN pkts.length
        { flip := false, err := e0, Header := H, Count := c, DataPool := [] }
        { data := recordsBytes pkts ++ rest, tailErr := e }).1 = pkts := by
  induction pkts generalizing e0 c rest with
  | nil => simp [readN]
  | cons p ps ih =>
    obtain ⟨hd, hc, hl, ht0, ht1⟩ := hp p (List.mem_cons_self p ps)
    have hdata : ({ data := recordsBytes (p :: ps) ++ rest, tailErr := e } : ByteStream) =
        { data := recordBytes p ++ (recordsBytes ps ++ rest), tailErr := e } := by
      simp [recordsBytes, List.append_assoc]
    rw [List.length_cons, hdata]
    simp only [readN,
      Next_recordBytes H e0 c p (recordsBytes ps ++ rest) e hd hc hl ht0 ht1]
    exact congrArg (p :: ·)
      (ih none (c + 1) rest fun q hq => hp q (List.mem_cons_of_mem p hq))

/-! ## Claim theorems -/

/-- Claim C1, amended: writing a header and N records through Writer and
reading them back through Reader reproduces every header field except
magic_number, which is stored as the constant 0xa1b23c4d, and reproduces
all N (timestamp, captured_length, original_length, payload) tuples —
provided the header's magic value is one of the two native-endian ones.
For swapped-endian magic values the Writer still emits little-endian
bytes, so the round trip does not hold (see the counterexample). -/
theorem pcap_C1_roundtrip_native (h : FileHeader) (pkts : List Packet)
    (hm : h.MagicNumber = 0xa1b2c3d4 ∨ h.MagicNumber = 0xa1b23c4d)
    (h1 : h.VersionMajor < 65536) (h2 : h.VersionMinor < 65536)
    (h3 : -2147483648 ≤ h.TimeZone) (h4 : h.TimeZone < 2147483648)
    (h5 : h.SigFigs < 4294967296) (h6 : h.SnapLen < 4294967296)
    (h7 : h.LinkType < 4294967296)
    (hp : ∀ p ∈ pkts, p.Data.length = h.SnapLen ∧ p.Caplen < 4294967296 ∧
      p.Len < 4294967296 ∧ 0 ≤ p.Time ∧ p.Time < 4294967296000000000) :
    roundTripRead h pkts =
      some ({ h with MagicNumber := 0xa1b23c4d }, none, pkts) := by
  rw [roundTripRead, writeAll_eq]
  simp only
  rw [NewReader_headerBytes h (recordsBytes pkts) Err.eof hm h1 h2 h3 h4 h5 h6 h7]
  simp only
  rw [show (recordsBytes pkts) = recordsBytes pkts ++ [] from (List.append_nil _).symm]
  rw [readN_records { h with MagicNumber := 0xa1b23c4d } pkts none 0 [] Err.eof
    (by simpa using hp)]

/-- Witness for C1: a concrete native-endian header and one concrete
record round-trip as the amended claim states. -/
theorem pcap_C1_roundtrip_native_witness :
    (({ MagicNumber := 0xa1b2c3d4, VersionMajor := 2, VersionMinor := 4,
        TimeZone := -1, SigFigs := 0, SnapLen := 2,
        LinkType := 1 } : FileHeader).MagicNumber = 0xa1b2c3d4 ∨
      ({ MagicNumber := 0xa1b2c3d4, VersionMajor := 2, VersionMinor := 4,
         TimeZone := -1, SigFigs := 0, SnapLen := 2,
         LinkType := 1 } : FileHeader).MagicNumber = 0xa1b23c4d) ∧
    roundTripRead
      { MagicNumber := 0xa1b2c3d4, VersionMajor := 2, VersionMinor := 4,
        TimeZone := -1, SigFigs := 0, SnapLen := 2, LinkType := 1 }
      [{ Time := 5000000007, Caplen := 2, Len := 14, Data := [9, 251] }] =
      some ({ MagicNumber := 0xa1b23c4d, VersionMajor := 2, VersionMinor := 4,
              TimeZone := -1, SigFigs := 0, SnapLen := 2, LinkType := 1 },
        none,
        [{ Time := 5000000007, Caplen := 2, Len := 14, Data := [9, 251] }]) := by
  refine ⟨Or.inl rfl, ?_⟩
  exact pcap_C1_roundtrip_native
    { MagicNumber := 0xa1b2c3d4, VersionMajor := 2, VersionMinor := 4,
      TimeZone := -1, SigFigs := 0, SnapLen := 2, LinkType := 1 }
    [{ Time := 5000000007, Caplen := 2, Len := 14, Data := [9, 251] }]
    (Or.inl rfl) (by decide) (by decide) (by decide) (by decide) (by decide)
    (by decide) (by decide) (by decide)

/-- Counterexample for C1 as stated: with the swapped-endian magic value
0xd4c3b2a1 and version_major 1, the round trip returns a header whose
magic_number is 0xa1b23c4d, not 0xd4c3b2a1, and whose version_major is
256, not 1 — the Writer always emits little-endian while the Reader
decodes big-endian after a swapped magic. -/
theorem pcap_C1_counterexample :
    roundTripRead
      { MagicNumber := 0xd4c3b2a1, VersionMajor := 1, VersionMinor := 0,
        TimeZone := 0, SigFigs := 0, SnapLen := 0, LinkType := 0 } [] =
      some ({ MagicNumber := 0xa1b23c4d, VersionMajor := 256, VersionMinor := 0,
              TimeZone := 0, SigFigs := 0, SnapLen := 0, LinkType := 0 },
        none, []) ∧
    (0xa1b23c4d : Nat) ≠ 0xd4c3b2a1 ∧ (256 : Nat) ≠ 1 := by
  refine ⟨by decide, by decide, by decide⟩

/-- Claim C2: when the first 4 bytes decode (little-endian, the byte-order
flag still unset) to one of the four accepted magic values, Reader
construction succeeds and the byte-order flag is false for the two
native-endian values and true for the two swapped-endian values; for any
other decoded value construction fails with the bad-magic error carrying
that value, and no Reader is returned. -/
theorem pcap_C2_magic_dispatch (s : ByteStream) (hlen : 4 ≤ s.data.length) :
    ((asUint32 (s.data.take 4) false = 0xa1b2c3d4 ∨
        asUint32 (s.data.take 4) false = 0xa1b23c4d) →
      (NewReader s).map (fun rs => rs.1.flip) = Except.ok false) ∧
    ((asUint32 (s.data.take 4) false = 0xd4c3b2a1 ∨
        asUint32 (s.data.take 4) false = 0x4d3cb2a1) →
      (NewReader s).map (fun rs => rs.1.flip) = Except.ok true) ∧
    ((asUint32 (s.data.take 4) false ≠ 0xa1b2c3d4 ∧
        asUint32 (s.data.take 4) false ≠ 0xa1b23c4d ∧
        asUint32 (s.data.take 4) false ≠ 0xd4c3b2a1 ∧
        asUint32 (s.data.take 4) false ≠ 0x4d3cb2a1) →
      NewReader s = Except.error (Err.badMagic (asUint32 (s.data.take 4) false))) := by
  rw [NewReader, sread_of_le 4 s hlen]
  simp only
  refine ⟨fun hm => ?_, fun hm => ?_, fun hm => ?_⟩
  · rw [if_pos hm]
    rfl
  · have hne : ¬(asUint32 (s.data.take 4) false = 0xa1b2c3d4 ∨
        asUint32 (s.data.take 4) false = 0xa1b23c4d) := by
      rcases hm with hm | hm <;> rw [hm] <;> decide
    rw [if_neg hne, if_pos hm]
    rfl
  · obtain ⟨n1, n2, n3, n4⟩ := hm
    rw [if_neg (by tauto), if_neg (by tauto)]

/-- Witness for C2: the three branches at concrete 24-byte streams — a
native-endian magic, a swapped-endian magic, and an unrecognized word. -/
theorem pcap_C2_magic_dispatch_witness :
    (4 ≤ ([0xd4, 0xc3, 0xb2, 0xa1, 0, 0, 0, 0, 0, 0, 0, 0,
           0, 0, 0, 0, 0, 0, 0, 0, 0, 0, 0, 0] : List Nat).length) ∧
    (NewReader { data := [0xd4, 0xc3, 0xb2, 0xa1, 0, 0, 0, 0, 0, 0, 0, 0,
                          0, 0, 0, 0, 0, 0, 0, 0, 0, 0, 0, 0],
                 tailErr := Err.eof }).map (fun rs => rs.1.flip) =
      Except.ok false ∧
    (NewReader { data := [0xa1, 0xb2, 0xc3, 0xd4, 0, 0, 0, 0, 0, 0, 0, 0,
                          0, 0, 0, 0, 0, 0, 0, 0, 0, 0, 0, 0],
                 tailErr := Err.eof }).map (fun rs => rs.1.flip) =
      Except.ok true ∧
    NewReader { data := [1, 2, 3, 4, 0, 0, 0, 0, 0, 0, 0, 0,
                         0, 0, 0, 0, 0, 0, 0, 0, 0, 0, 0, 0],
                tailErr := Err.eof } =
      Except.error (Err.badMagic 0x04030201) := by
  refine ⟨by decide, ?_, ?_, ?_⟩
  · exact (pcap_C2_magic_dispatch
      { data := [0xd4, 0xc3, 0xb2, 0xa1, 0, 0, 0, 0, 0, 0, 0, 0,
                 0, 0, 0, 0, 0, 0, 0, 0, 0, 0, 0, 0], tailErr := Err.eof }
      (by decide)).1 (by decide)
  · exact (pcap_C2_magic_dispatch
      { data := [0xa1, 0xb2, 0xc3, 0xd4, 0, 0, 0, 0, 0, 0, 0, 0,
                 0, 0, 0, 0, 0, 0, 0, 0, 0, 0, 0, 0], tailErr := Err.eof }
      (by decide)).2.1 (by decide)
  · exact (pcap_C2_magic_dispatch
      { data := [1, 2, 3, 4, 0, 0, 0, 0, 0, 0, 0, 0,
                 0, 0, 0, 0, 0, 0, 0, 0, 0, 0, 0, 0], tailErr := Err.eof }
      (by decide)).2.2 (by decide)

/-- Claim C3, code behavior at the failing input: a stream holding exactly
the four bytes of a valid little-endian magic word and nothing else.
NewReader returns ok with a Reader whose header fields are all zero and
whose err field records the end-of-stream error; the named return err of
the Go source is never assigned, so construction does not fail as the
spec requires. -/
theorem pcap_C3_short_header_returns_ok :
    NewReader { data := [0xd4, 0xc3, 0xb2, 0xa1], tailErr := Err.eof } =
      Except.ok
        ({ flip := false, err := some Err.eof,
           Header := { MagicNumber := 0xa1b23c4d, VersionMajor := 0,
                       VersionMinor := 0, TimeZone := 0, SigFigs := 0,
                       SnapLen := 0, LinkType := 0 },
           Count := 0, DataPool := [] },
         { data := [], tailErr := Err.eof }) := by
  rfl

/-- Claim C4, amended: when the stream ends exactly at a 16-byte record
boundary, Next returns the terminal no-more-packets signal (no packet),
but the end-of-stream error is recorded in the Reader's err field — the
code does not distinguish a clean end of stream from a truncated record
header. -/
theorem pcap_C4_eof_at_boundary (r : Reader) (s : ByteStream)
    (hdata : s.data = []) (herr : s.tailErr = Err.eof) :
    Reader.Next r s = (none, { r with err := some Err.eof }, s) := by
  obtain ⟨d, e⟩ := s
  simp only at hdata herr
  subst hdata herr
  rw [Reader.Next, sread_of_lt 16 _ (by simp)]

/-- Witness for C4: a Reader built over a header-only stream; the next
call returns no packet and records the end-of-stream error. -/
theorem pcap_C4_eof_at_boundary_witness :
    Reader.Next
        { flip := false, err := none,
          Header := { MagicNumber := 0xa1b23c4d, VersionMajor := 2,
                      VersionMinor := 4, TimeZone := 0, SigFigs := 0,
                      SnapLen := 2, LinkType := 1 },
          Count := 0, DataPool := [] }
        { data := [], tailErr := Err.eof } =
      (none,
       { flip := false, err := some Err.eof,
         Header := { MagicNumber := 0xa1b23c4d, VersionMajor := 2,
                     VersionMinor := 4, TimeZone := 0, SigFigs := 0,
                     SnapLen := 2, LinkType := 1 },
         Count := 0, DataPool := [] },
       { data := [], tailErr := Err.eof }) :=
  pcap_C4_eof_at_boundary _ _ rfl rfl

/-- Counterexample for C4 as stated: reaching the end of the written
stream exactly at a record boundary makes Next return the terminal
signal, yet the error field of the Reader is some end-of-stream error
rather than none, so an error is recorded. -/
theorem pcap_C4_counterexample :
    (NewReader
        { data := headerBytes
            { MagicNumber := 0xa1b2c3d4, VersionMajor := 2, VersionMinor := 4,
              TimeZone := 0, SigFigs := 0, SnapLen := 2, LinkType := 1 },
          tailErr := Err.eof }).map
        (fun rs => ((Reader.Next rs.1 rs.2).1, (Reader.Next rs.1 rs.2).2.1.err)) =
      Except.ok ((none : Option Packet), some Err.eof) ∧
    some Err.eof ≠ (none : Option Err) := by
  exact ⟨rfl, by decide⟩

/-- Claim C5: a short read while reading the 16-byte record header or the
payload yields no packet (never a partial one) and records the stream's
error in the Reader; the stream is left drained, and on a drained stream
every subsequent Next call again returns no packet and records the same
error, so the failure is fatal for the remainder of iteration. -/
theorem pcap_C5_fatal_errors (r : Reader) (s : ByteStream) :
    (s.data.length < 16 →
      Reader.Next r s =
        (none, { r with err := some s.tailErr },
         { data := [], tailErr := s.tailErr })) ∧
    (16 ≤ s.data.length → s.data.length < 16 + (poolGet r).1.length →
      Reader.Next r s =
        (none, { (poolGet r).2 with err := some s.tailErr },
         { data := [], tailErr := s.tailErr })) ∧
    (∀ r2 : Reader, ∀ e : Err,
      Reader.Next r2 { data := [], tailErr := e } =
        (none, { r2 with err := some e }, { data := [], tailErr := e })) := by
  refine ⟨fun hlt => ?_, fun hge hlt => ?_, fun r2 e => ?_⟩
  · rw [Reader.Next, sread_of_lt 16 s hlt]
  · rw [Reader.Next, sread_of_le 16 s hge]
    simp only
    rw [sread_of_lt (poolGet r).1.length
      { data := s.data.drop 16, tailErr := s.tailErr } (by simp; omega)]
  · rw [Reader.Next, sread_of_lt 16 _ (by simp)]

/-- Witness for C5: a header-truncated stream and a payload-truncated
stream, both over a Reader with snapshot length 4. -/
theorem pcap_C5_fatal_errors_witness :
    (([5, 6, 7] : List Nat).length < 16 ∧
      Reader.Next
          { flip := false, err := none,
            Header := { MagicNumber := 0xa1b23c4d, VersionMajor := 2,
                        VersionMinor := 4, TimeZone := 0, SigFigs := 0,
                        SnapLen := 4, LinkType := 1 },
            Count := 0, DataPool := [] }
          { data := [5, 6, 7], tailErr := Err.eof } =
        (none,
         { flip := false, err := some Err.eof,
           Header := { MagicNumber := 0xa1b23c4d, VersionMajor := 2,
                       VersionMinor := 4, TimeZone := 0, SigFigs := 0,
                       SnapLen := 4, LinkType := 1 },
           Count := 0, DataPool := [] },
         { data := [], tailErr := Err.eof })) ∧
    Reader.Next
        { flip := false, err := none,
          Header := { MagicNumber := 0xa1b23c4d, VersionMajor := 2,
                      VersionMinor := 4, TimeZone := 0, SigFigs := 0,
                      SnapLen := 4, LinkType := 1 },
          Count := 0, DataPool := [] }
        { data := [1, 0, 0, 0, 2, 0, 0, 0, 3, 0, 0, 0, 4, 0, 0, 0, 9, 9],
          tailErr := Err.eof } =
      (none,
       { flip := false, err := some Err.eof,
         Header := { MagicNumber := 0xa1b23c4d, VersionMajor := 2,
                     VersionMinor := 4, TimeZone := 0, SigFigs := 0,
                     SnapLen := 4, LinkType := 1 },
         Count := 1, DataPool := [] },
       { data := [], tailErr := Err.eof }) := by
  refine ⟨⟨by decide, ?_⟩, ?_⟩
  · exact (pcap_C5_fatal_errors _ _).1 (by decide)
  · exact (pcap_C5_fatal_errors _ _).2.1 (by decide) (by decide)

/-- Claim C6, amended: for every successfully parsed record the returned
timestamp is time.Unix(seconds, fraction) — the 4-byte fraction field is
always interpreted as nanoseconds, whatever the magic value was; the
nanosecond-resolution magic values behave as the claim states, the
microsecond-resolution ones do not (see the counterexample). -/
theorem pcap_C6_fraction_nanoseconds (r : Reader) (s : ByteStream)
    (p : Packet) (r1 : Reader) (s1 : ByteStream)
    (h : Reader.Next r s = (some p, r1, s1)) :
    p.Time = timeUnix (Int.ofNat (asUint32 (s.data.take 4) r.flip))
      (Int.ofNat (asUint32 ((s.data.drop 4).take 4) r.flip)) := by
  rw [Reader.Next] at h
  by_cases h16 : 16 ≤ s.data.length
  · rw [sread_of_le 16 s h16] at h
    simp only at h
    by_cases hpl : (poolGet r).1.length ≤ (s.data.drop 16).length
    · rw [sread_of_le _ _ (by simpa using hpl)] at h
      simp only [Prod.mk.injEq, Option.some.injEq] at h
      obtain ⟨hpk, _, _⟩ := h
      subst hpk
      simp only
      rw [List.take_take, List.drop_take, List.take_take]
      norm_num
    · rw [sread_of_lt _ _ (by simp at hpl ⊢; omega)] at h
      simp at h
  · rw [sread_of_lt 16 s (by omega)] at h
    simp at h

/-- Witness for C6: a concrete record header with seconds 1 and fraction 2
parses to the instant time.Unix(1, 2). -/
theorem pcap_C6_fraction_nanoseconds_witness :
    Reader.Next
        { flip := false, err := none,
          Header := { MagicNumber := 0xa1b23c4d, VersionMajor := 2,
                      VersionMinor := 4, TimeZone := 0, SigFigs := 0,
                      SnapLen := 0, LinkType := 1 },
          Count := 0, DataPool := [] }
        { data := [1, 0, 0, 0, 2, 0, 0, 0, 3, 0, 0, 0, 4, 0, 0, 0],
          tailErr := Err.eof } =
      (some { Time := 1000000002, Caplen := 3, Len := 4, Data := [] },
       { flip := false, err := none,
         Header := { MagicNumber := 0xa1b23c4d, VersionMajor := 2,
                     VersionMinor := 4, TimeZone := 0, SigFigs := 0,
                     SnapLen := 0, LinkType := 1 },
         Count := 1, DataPool := [] },
       { data := [], tailErr := Err.eof }) ∧
    ({ Time := 1000000002, Caplen := 3, Len := 4, Data := [] } : Packet).Time =
      timeUnix
        (Int.ofNat (asUint32
          (([1, 0, 0, 0, 2, 0, 0, 0, 3, 0, 0, 0, 4, 0, 0, 0] : List Nat).take 4)
          false))
        (Int.ofNat (asUint32
          ((([1, 0, 0, 0, 2, 0, 0, 0, 3, 0, 0, 0, 4, 0, 0, 0] : List Nat).drop 4).take 4)
          false)) := by
  have hnext : Reader.Next
      { flip := false, err := none,
        Header := { MagicNumber := 0xa1b23c4d, VersionMajor := 2,
                    VersionMinor := 4, TimeZone := 0, SigFigs := 0,
                    SnapLen := 0, LinkType := 1 },
        Count := 0, DataPool := [] }
      { data := [1, 0, 0, 0, 2, 0, 0, 0, 3, 0, 0, 0, 4, 0, 0, 0],
        tailErr := Err.eof } =
      (some { Time := 1000000002, Caplen := 3, Len := 4, Data := [] },
       { flip := false, err := none,
         Header := { MagicNumber := 0xa1b23c4d, VersionMajor := 2,
                     VersionMinor := 4, TimeZone := 0, SigFigs := 0,
                     SnapLen := 0, LinkType := 1 },
         Count := 1, DataPool := [] },
       { data := [], tailErr := Err.eof }) := by decide
  have h2 := pcap_C6_fraction_nanoseconds _ _ _ _ _ hnext
  exact ⟨hnext, h2⟩

/-- Counterexample for C6 as stated: with the microsecond-resolution magic
0xa1b2c3d4 and a record whose fraction field is 1, the claim requires the
timestamp 0 seconds + 1 microsecond, i.e. the instant 1000 ns, but the
code produces time.Unix(0, 1), the instant 1 ns. -/
theorem pcap_C6_counterexample :
    (NewReader
        { data := headerBytes
              { MagicNumber := 0xa1b2c3d4, VersionMajor := 2, VersionMinor := 4,
                TimeZone := 0, SigFigs := 0, SnapLen := 0, LinkType := 1 } ++
            [0, 0, 0, 0, 1, 0, 0, 0, 0, 0, 0, 0, 0, 0, 0, 0],
          tailErr := Err.eof }).map
        (fun rs => (Reader.Next rs.1 rs.2).1.map Packet.Time) =
      Except.ok (some 1) ∧ (1 : Int) ≠ 1000 := by
  exact ⟨rfl, by decide⟩

theorem poolGet_length (r : Reader)
    (hpool : ∀ b ∈ r.DataPool, b.length = r.Header.SnapLen) :
    (poolGet r).1.length = r.Header.SnapLen := by
  cases hd : r.DataPool with
  | nil => simp [poolGet, hd, NewPacketData]
  | cons b rest =>
    have hb := hpool b (by rw [hd]; exact List.mem_cons_self _ _)
    simp [poolGet, hd, hb]

/-- Claim C7: the codec uses a fixed-size payload policy. When every
pooled buffer has snapshot length (as the pool factory guarantees), a
successful Next reads exactly snapshot_length payload bytes from the
stream — regardless of the captured_length word it just decoded — and
leaves the stream advanced by 16 + snapshot_length bytes; Writer.Write
emits the 16-byte record header followed by the full payload buffer, not
merely captured_length bytes. -/
theorem pcap_C7_fixed_size_policy (r : Reader) (s : ByteStream)
    (hpool : ∀ b ∈ r.DataPool, b.length = r.Header.SnapLen)
    (hlen : 16 + r.Header.SnapLen ≤ s.data.length) :
    (Reader.Next r s).1.map Packet.Data =
        some ((s.data.drop 16).take r.Header.SnapLen) ∧
    (Reader.Next r s).2.2.data = s.data.drop (16 + r.Header.SnapLen) ∧
    (∀ w : Writer, ∀ pkt : Packet, w.sink.good = true →
      Writer.Write w pkt =
        Except.ok ⟨⟨w.sink.written ++ (recordHeaderBytes pkt ++ pkt.Data), true⟩⟩) ∧
    (∀ pkt : Packet, (recordHeaderBytes pkt).length = 16) := by
  have hplen := poolGet_length r hpool
  have h16 : 16 ≤ s.data.length := by omega
  rw [Reader.Next, sread_of_le 16 s h16]
  simp only
  rw [sread_of_le ((poolGet r).1.length) _ (by simp [hplen]; omega)]
  simp only
  refine ⟨by simp [hplen], ?_, ?_, ?_⟩
  · simp only [hplen, List.drop_drop]
  · intro w pkt hg
    simpa [recordBytes, List.append_assoc] using Writer_Write_good w pkt hg
  · intro pkt
    simp [recordHeaderBytes, putUint32LE]

/-- Witness for C7: a Reader with snapshot length 2 over an 18-byte
stream, and one packet written to a good sink. -/
theorem pcap_C7_fixed_size_policy_witness :
    (Reader.Next
        { flip := false, err := none,
          Header := { MagicNumber := 0xa1b23c4d, VersionMajor := 2,
                      VersionMinor := 4, TimeZone := 0, SigFigs := 0,
                      SnapLen := 2, LinkType := 1 },
          Count := 0, DataPool := [] }
        { data := [1, 0, 0, 0, 2, 0, 0, 0, 9, 0, 0, 0, 4, 0, 0, 0, 7, 8],
          tailErr := Err.eof }).1.map Packet.Data = some [7, 8] ∧
    Writer.Write { sink := { written := [], good := true } }
        { Time := 0, Caplen := 1, Len := 1, Data := [7, 8, 9] } =
      Except.ok ⟨⟨[0, 0, 0, 0, 0, 0, 0, 0, 1, 0, 0, 0, 1, 0, 0, 0, 7, 8, 9],
        true⟩⟩ := by
  have hc := pcap_C7_fixed_size_policy
    { flip := false, err := none,
      Header := { MagicNumber := 0xa1b23c4d, VersionMajor := 2,
                  VersionMinor := 4, TimeZone := 0, SigFigs := 0,
                  SnapLen := 2, LinkType := 1 },
      Count := 0, DataPool := [] }
    { data := [1, 0, 0, 0, 2, 0, 0, 0, 9, 0, 0, 0, 4, 0, 0, 0, 7, 8],
      tailErr := Err.eof }
    (by intro b hb; simp at hb) (by decide)
  refine ⟨hc.1, ?_⟩
  have hw := hc.2.2.1 { sink := { written := [], good := true } }
    { Time := 0, Caplen := 1, Len := 1, Data := [7, 8, 9] } rfl
  simpa using hw

/-- Claim C8: NewWriter serializes exactly the 24-byte header in the fixed
little-endian layout magic(4), version_major(2), version_minor(2),
tz_offset(4), sig_figs(4), snaplen(4), linktype(4) and writes it to the
sink immediately; construction fails exactly when the sink write fails,
and on failure no Writer is returned. -/
theorem pcap_C8_writer_header (sk : Sink) (h : FileHeader)
    (hM : h.MagicNumber < 4294967296) (h1 : h.VersionMajor < 65536)
    (h2 : h.VersionMinor < 65536) (h3 : -2147483648 ≤ h.TimeZone)
    (h4 : h.TimeZone < 2147483648) (h5 : h.SigFigs < 4294967296)
    (h6 : h.SnapLen < 4294967296) (h7 : h.LinkType < 4294967296) :
    (sk.good = true →
      NewWriter sk h =
        Except.ok ⟨⟨sk.written ++ headerBytes h, true⟩⟩) ∧
    (sk.good = false → NewWriter sk h = Except.error Err.sinkErr) ∧
    (headerBytes h).length = 24 ∧
    asUint32 ((headerBytes h).take 4) false = h.MagicNumber ∧
    asUint16 (((headerBytes h).drop 4).take 2) false = h.VersionMajor ∧
    asUint16 (((headerBytes h).drop 6).take 2) false = h.VersionMinor ∧
    toInt32 (asUint32 (((headerBytes h).drop 8).take 4) false) = h.TimeZone ∧
    asUint32 (((headerBytes h).drop 12).take 4) false = h.SigFigs ∧
    asUint32 (((headerBytes h).drop 16).take 4) false = h.SnapLen ∧
    asUint32 ((headerBytes h).drop 20) false = h.LinkType := by
  refine ⟨NewWriter_good sk h, NewWriter_bad sk h, ?_, ?_, ?_, ?_, ?_, ?_, ?_, ?_⟩
  · simp [headerBytes, putUint32LE, putUint16LE]
  · simp [headerBytes, putUint32LE, putUint16LE, asUint32, leUint32]
    omega
  · simp [headerBytes, putUint32LE, putUint16LE, asUint16, leUint16]
    omega
  · simp [headerBytes, putUint32LE, putUint16LE, asUint16, leUint16]
    omega
  · simp [headerBytes, putUint32LE, putUint16LE, asUint32, leUint32,
      toInt32, uint32OfInt]
    split <;> omega
  · simp [headerBytes, putUint32LE, putUint16LE, asUint32, leUint32]
    omega
  · simp [headerBytes, putUint32LE, putUint16LE, asUint32, leUint32]
    omega
  · simp [headerBytes, putUint32LE, putUint16LE, asUint32, leUint32]
    omega

/-- Witness for C8: a concrete header against a good sink and a failing
sink. -/
theorem pcap_C8_writer_header_witness :
    NewWriter { written := [], good := true }
        { MagicNumber := 0xa1b2c3d4, VersionMajor := 2, VersionMinor := 4,
          TimeZone := -1, SigFigs := 0, SnapLen := 65535, LinkType := 1 } =
      Except.ok ⟨⟨headerBytes
        { MagicNumber := 0xa1b2c3d4, VersionMajor := 2, VersionMinor := 4,
          TimeZone := -1, SigFigs := 0, SnapLen := 65535, LinkType := 1 },
        true⟩⟩ ∧
    NewWriter { written := [], good := false }
        { MagicNumber := 0xa1b2c3d4, VersionMajor := 2, VersionMinor := 4,
          TimeZone := -1, SigFigs := 0, SnapLen := 65535, LinkType := 1 } =
      Except.error Err.sinkErr ∧
    (headerBytes
        { MagicNumber := 0xa1b2c3d4, VersionMajor := 2, VersionMinor := 4,
          TimeZone := -1, SigFigs := 0, SnapLen := 65535,
          LinkType := 1 }).length = 24 := by
  have hgood := pcap_C8_writer_header { written := [], good := true }
    { MagicNumber := 0xa1b2c3d4, VersionMajor := 2, VersionMinor := 4,
      TimeZone := -1, SigFigs := 0, SnapLen := 65535, LinkType := 1 }
    (by decide) (by decide) (by decide) (by decide) (by decide) (by decide)
    (by decide) (by decide)
  have hbad := pcap_C8_writer_header { written := [], good := false }
    { MagicNumber := 0xa1b2c3d4, VersionMajor := 2, VersionMinor := 4,
      TimeZone := -1, SigFigs := 0, SnapLen := 65535, LinkType := 1 }
    (by decide) (by decide) (by decide) (by decide) (by decide) (by decide)
    (by decide) (by decide)
  exact ⟨by simpa using hgood.1 rfl, hbad.2.1 rfl, hgood.2.2.1⟩

/-- Claim C9: the pool factory allocates a zero-filled buffer of exactly
snapshot_length bytes and increments the allocation counter exactly on a
fresh allocation; a buffer released by poolPut is reused by the next Next
call that needs one, observable as the allocation counter not
increasing. -/
theorem pcap_C9_pool_reuse (r : Reader) (b : List Nat) :
    (r.DataPool = [] →
      poolGet r = (List.replicate r.Header.SnapLen 0,
        { r with Count := r.Count + 1 }) ∧
      (poolGet r).1.length = r.Header.SnapLen ∧
      ∀ x ∈ (poolGet r).1, x = 0) ∧
    poolGet (poolPut r b) = (b, r) ∧
    (∀ s : ByteStream, 16 + b.length ≤ s.data.length →
      ((poolPut r b).Next s).2.1.Count = r.Count ∧
      ((poolPut r b).Next s).1.map Packet.Data =
        some ((s.data.drop 16).take b.length)) := by
  refine ⟨fun hd => ?_, rfl, fun s hlen => ?_⟩
  · refine ⟨by simp [poolGet, hd, NewPacketData], ?_, ?_⟩
    · simp [poolGet, hd, NewPacketData]
    · intro x hx
      simp only [poolGet, hd, NewPacketData] at hx
      exact List.eq_of_mem_replicate hx
  · have hpg : poolGet (poolPut r b) = (b, r) := rfl
    rw [Reader.Next, sread_of_le 16 s (by omega)]
    simp only
    rw [hpg]
    simp only
    rw [sread_of_le b.length _ (by simp; omega)]
    exact ⟨rfl, rfl⟩

/-- Witness for C9: a released two-byte buffer is reused by the next Next
call and the allocation counter stays at its previous value. -/
theorem pcap_C9_pool_reuse_witness :
    poolGet (poolPut
      { flip := false, err := none,
        Header := { MagicNumber := 0xa1b23c4d, VersionMajor := 2,
                    VersionMinor := 4, TimeZone := 0, SigFigs := 0,
                    SnapLen := 2, LinkType := 1 },
        Count := 5, DataPool := [] } [7, 9]) =
      ([7, 9],
       { flip := false, err := none,
         Header := { MagicNumber := 0xa1b23c4d, VersionMajor := 2,
                     VersionMinor := 4, TimeZone := 0, SigFigs := 0,
                     SnapLen := 2, LinkType := 1 },
         Count := 5, DataPool := [] }) ∧
    ((poolPut
      { flip := false, err := none,
        Header := { MagicNumber := 0xa1b23c4d, VersionMajor := 2,
                    VersionMinor := 4, TimeZone := 0, SigFigs := 0,
                    SnapLen := 2, LinkType := 1 },
        Count := 5, DataPool := [] } [7, 9]).Next
      { data := [1, 0, 0, 0, 2, 0, 0, 0, 3, 0, 0, 0, 4, 0, 0, 0, 8, 6],
        tailErr := Err.eof }).2.1.Count = 5 := by
  have hc := pcap_C9_pool_reuse
    { flip := false, err := none,
      Header := { MagicNumber := 0xa1b23c4d, VersionMajor := 2,
                  VersionMinor := 4, TimeZone := 0, SigFigs := 0,
                  SnapLen := 2, LinkType := 1 },
      Count := 5, DataPool := [] } [7, 9]
  exact ⟨hc.2.1, (hc.2.2
    { data := [1, 0, 0, 0, 2, 0, 0, 0, 3, 0, 0, 0, 4, 0, 0, 0, 8, 6],
      tailErr := Err.eof } (by decide)).1⟩

/-- Claim C10: whenever NewReader succeeds, the stored header's
MagicNumber field is the constant 0xa1b23c4d regardless of which accepted
magic value appeared in the stream; the actual magic value is reflected
only in the byte-order flag. -/
theorem pcap_C10_stored_magic (s : ByteStream) (r : Reader) (s1 : ByteStream)
    (h : NewReader s = Except.ok (r, s1)) :
    r.Header.MagicNumber = 0xa1b23c4d ∧
      (r.flip = true ↔ (asUint32 (s.data.take 4) false = 0xd4c3b2a1 ∨
        asUint32 (s.data.take 4) false = 0x4d3cb2a1)) := by
  rw [NewReader] at h
  by_cases h4 : 4 ≤ s.data.length
  · rw [sread_of_le 4 s h4] at h
    simp only at h
    by_cases hA : asUint32 (s.data.take 4) false = 0xa1b2c3d4 ∨
        asUint32 (s.data.take 4) false = 0xa1b23c4d
    · rw [if_pos hA] at h
      simp only [Except.ok.injEq] at h
      have hr := congrArg Prod.fst h
      simp only at hr
      rw [← hr]
      refine ⟨mkHeaderReader_magic _ _, ?_⟩
      rw [mkHeaderReader_flip]
      constructor
      · intro hfalse
        exact absurd hfalse (by decide)
      · intro hsw
        rcases hA with hA | hA <;> rcases hsw with hsw | hsw <;>
          rw [hA] at hsw <;> exact absurd hsw (by decide)
    · by_cases hB : asUint32 (s.data.take 4) false = 0xd4c3b2a1 ∨
          asUint32 (s.data.take 4) false = 0x4d3cb2a1
      · rw [if_neg hA, if_pos hB] at h
        simp only [Except.ok.injEq] at h
        have hr := congrArg Prod.fst h
        simp only at hr
        rw [← hr]
        refine ⟨mkHeaderReader_magic _ _, ?_⟩
        rw [mkHeaderReader_flip]
        simp [hB]
      · rw [if_neg hA, if_neg hB] at h
        exact absurd h (by simp)
  · rw [sread_of_lt 4 s (by omega)] at h
    simp only at h
    rw [if_neg (by decide), if_neg (by decide)] at h
    exact absurd h (by simp)

/-- Witness for C10: a stream carrying the swapped-endian nanosecond magic
0x4d3cb2a1; the stored MagicNumber is still 0xa1b23c4d and the flag is
set. -/
theorem pcap_C10_stored_magic_witness :
    NewReader { data := [0xa1, 0xb2, 0x3c, 0x4d, 0, 0, 0, 0, 0, 0, 0, 0,
                         0, 0, 0, 0, 0, 0, 0, 0, 0, 0, 0, 0],
                tailErr := Err.eof } =
      Except.ok
        ({ flip := true, err := none,
           Header := { MagicNumber := 0xa1b23c4d, VersionMajor := 0,
                       VersionMinor := 0, TimeZone := 0, SigFigs := 0,
                       SnapLen := 0, LinkType := 0 },
           Count := 0, DataPool := [] },
         { data := [], tailErr := Err.eof }) ∧
    ({ flip := true, err := none,
       Header := { MagicNumber := 0xa1b23c4d, VersionMajor := 0,
                   VersionMinor := 0, TimeZone := 0, SigFigs := 0,
                   SnapLen := 0, LinkType := 0 },
       Count := 0, DataPool := [] } : Reader).Header.MagicNumber =
      0xa1b23c4d := by
  have hok : NewReader ⟨[0xa1, 0xb2, 0x3c, 0x4d, 0, 0, 0, 0, 0, 0, 0, 0,
      0, 0, 0, 0, 0, 0, 0, 0, 0, 0, 0, 0], Err.eof⟩ =
      Except.ok
        ({ flip := true, err := none,
           Header := { MagicNumber := 0xa1b23c4d, VersionMajor := 0,
                       VersionMinor := 0, TimeZone := 0, SigFigs := 0,
                       SnapLen := 0, LinkType := 0 },
           Count := 0, DataPool := [] },
         { data := [], tailErr := Err.eof }) := by rfl
  have h10 := pcap_C10_stored_magic _ _ _ hok
  exact ⟨hok, h10.1⟩

end Pcap
